import Mathlib

/-!
Verification of the minuSQL storage core against its specification.

The development shallowly embeds the Rust sources:
  - src/bitmap.rs            (bitmap utility: get/set/clear of a bit in a 64-bit word)
  - src/buffer/mod.rs        (buffer pool construction)
  - src/buffer/eviction_policies/lru.rs (LRU eviction policy; method bodies are stubs
    in the source, so the behaviour is modelled from the spec)
  - the Disk Manager (its implementation file is not in the provided sources; only
    tests/test_disk.rs exercises it, so it is modelled from the spec)

Machine integers are embedded as Nat with an explicit bound of 2 to the 64 where the
width matters. Fallible operations return Except. Rust functions that mutate a value
through a mutable reference are embedded as functions returning the status together
with the resulting value.
-/

namespace MinuSQL

/-! ### Bitmap utility, embedded from src/bitmap.rs -/

/-- Custom error for bitmap operations, from src/bitmap.rs. The source names the
single variant OutOfBounds. -/
inductive BitmapErr where
  | OutOfBounds
  deriving DecidableEq, Repr

/-- Return the n-th bit in the 64-bit bitmap.
Embeds get_nth_bit from src/bitmap.rs: fails when n is 64 or more, otherwise
returns the shifted-and-masked bit value. -/
def get_nth_bit (bitmap : Nat) (n : Nat) : Except BitmapErr Nat :=
  if n ≥ 64 then Except.error BitmapErr.OutOfBounds
  else Except.ok ((bitmap >>> n) &&& 1)

/-- Set the n-th bit in the 64-bit bitmap to 1.
Embeds set_nth_bit from src/bitmap.rs: the Rust function mutates the word through a
mutable reference, so the embedding returns the status paired with the resulting
word; on the error path the word is returned unchanged, as the source returns
before mutating. -/
def set_nth_bit (bitmap : Nat) (n : Nat) : Except BitmapErr Unit × Nat :=
  if n ≥ 64 then (Except.error BitmapErr.OutOfBounds, bitmap)
  else (Except.ok (), bitmap ||| (1 <<< n))

/-- Set the n-th bit in the 64-bit bitmap to 0.
Embeds clear_nth_bit from src/bitmap.rs. The Rust mask is the bitwise complement
of 1 shifted left by n within a 64-bit word, embedded as xor against the all-ones
64-bit word. -/
def clear_nth_bit (bitmap : Nat) (n : Nat) : Except BitmapErr Unit × Nat :=
  if n ≥ 64 then (Except.error BitmapErr.OutOfBounds, bitmap)
  else (Except.ok (), bitmap &&& ((2 ^ 64 - 1) ^^^ (1 <<< n)))

/-- Sanity check mirroring test_bitmap_operations in src/bitmap.rs. -/
theorem bitmap_source_test :
    get_nth_bit 12 0 = Except.ok 0 ∧
    get_nth_bit 12 3 = Except.ok 1 ∧
    get_nth_bit 12 4 = Except.ok 0 ∧
    (clear_nth_bit (set_nth_bit 12 0).2 3).2 = 5 :=
  ⟨rfl, rfl, rfl, rfl⟩

/-- The masked shifted word equals the indicator of the tested bit. -/
theorem shiftRight_and_one_eq_testBit (w n : Nat) :
    (w >>> n) &&& 1 = if w.testBit n then 1 else 0 := by
  rw [Nat.and_one_is_mod, Nat.testBit_to_div_mod, Nat.shiftRight_eq_div_pow]
  rcases Nat.mod_two_eq_zero_or_one (w / 2 ^ n) with h | h <;> simp [h]

/-- C7: for every 64-bit word and every index n, each of get_nth_bit, set_nth_bit
and clear_nth_bit fails with the out-of-bounds error exactly when n ≥ 64, and
succeeds (returns Ok) exactly when n < 64. -/
theorem bitmap_bounds_check (w n : Nat) :
    (get_nth_bit w n = Except.error BitmapErr.OutOfBounds ↔ 64 ≤ n) ∧
    ((∃ v, get_nth_bit w n = Except.ok v) ↔ n < 64) ∧
    ((set_nth_bit w n).1 = Except.error BitmapErr.OutOfBounds ↔ 64 ≤ n) ∧
    ((set_nth_bit w n).1 = Except.ok () ↔ n < 64) ∧
    ((clear_nth_bit w n).1 = Except.error BitmapErr.OutOfBounds ↔ 64 ≤ n) ∧
    ((clear_nth_bit w n).1 = Except.ok () ↔ n < 64) := by
  unfold get_nth_bit set_nth_bit clear_nth_bit
  by_cases h : 64 ≤ n
  · simp [h]
  · simp [h]
    omega

/-- C8: for every word w and index n < 64, get_nth_bit succeeds and returns the
value of bit n of w, which is always 0 or 1. -/
theorem get_bit_value (w n : Nat) (h : n < 64) :
    get_nth_bit w n = Except.ok (if w.testBit n then 1 else 0) ∧
    (∀ v, get_nth_bit w n = Except.ok v → v = 0 ∨ v = 1) := by
  unfold get_nth_bit
  rw [if_neg (by omega)]
  refine ⟨by rw [shiftRight_and_one_eq_testBit], ?_⟩
  intro v hv
  rw [shiftRight_and_one_eq_testBit] at hv
  rcases Except.ok.inj hv with rfl
  by_cases hb : w.testBit n <;> simp [hb]

/-- C8 witness at the concrete input of the source test suite. -/
theorem get_bit_value_witness :
    (3 : Nat) < 64 ∧
    (get_nth_bit 12 3 = Except.ok (if Nat.testBit 12 3 then 1 else 0) ∧
      (∀ v, get_nth_bit 12 3 = Except.ok v → v = 0 ∨ v = 1)) :=
  ⟨by decide, get_bit_value 12 3 (by decide)⟩

/-- C9: for every 64-bit word w and index n < 64, set_nth_bit succeeds and sets
bit n to 1, clear_nth_bit succeeds and sets bit n to 0, every other bit of the
word is unchanged in both cases, and the result is again a 64-bit word; the
embedding returns the mutated word, so there is no effect beyond it. -/
theorem set_clear_bit_effect (w n : Nat) (hw : w < 2 ^ 64) (hn : n < 64) :
    (set_nth_bit w n).1 = Except.ok () ∧
    (clear_nth_bit w n).1 = Except.ok () ∧
    ((set_nth_bit w n).2).testBit n = true ∧
    ((clear_nth_bit w n).2).testBit n = false ∧
    (∀ m, m ≠ n → ((set_nth_bit w n).2).testBit m = w.testBit m) ∧
    (∀ m, m ≠ n → ((clear_nth_bit w n).2).testBit m = w.testBit m) ∧
    (set_nth_bit w n).2 < 2 ^ 64 ∧ (clear_nth_bit w n).2 < 2 ^ 64 := by
  have hn64 : ¬ n ≥ 64 := by omega
  have hs : set_nth_bit w n = (Except.ok (), w ||| 2 ^ n) := by
    unfold set_nth_bit
    rw [if_neg hn64, Nat.one_shiftLeft]
  have hc : clear_nth_bit w n = (Except.ok (), w &&& ((2 ^ 64 - 1) ^^^ 2 ^ n)) := by
    unfold clear_nth_bit
    rw [if_neg hn64, Nat.one_shiftLeft]
  rw [hs, hc]
  refine ⟨rfl, rfl, ?_, ?_, ?_, ?_, ?_, ?_⟩
  · simp only [Nat.testBit_lor, Nat.testBit_two_pow]
    simp
  · simp only [Nat.testBit_land, Nat.testBit_xor, Nat.testBit_two_pow_sub_one,
      Nat.testBit_two_pow]
    simp [hn]
  · intro m hm
    simp only [Nat.testBit_lor, Nat.testBit_two_pow]
    simp [Ne.symm hm]
  · intro m hm
    by_cases hm64 : m < 64
    · simp only [Nat.testBit_land, Nat.testBit_xor, Nat.testBit_two_pow_sub_one,
        Nat.testBit_two_pow]
      simp [hm64, Ne.symm hm]
    · have hwm : w.testBit m = false :=
        Nat.testBit_lt_two_pow (lt_of_lt_of_le hw (Nat.pow_le_pow_right (by omega) (by omega)))
      simp only [Nat.testBit_land, hwm]
      simp
  · exact Nat.or_lt_two_pow hw (Nat.pow_lt_pow_right (by omega) hn)
  · exact lt_of_le_of_lt Nat.and_le_left hw

/-- C9 witness at the concrete input of the source test suite. -/
theorem set_clear_bit_effect_witness :
    (12 : Nat) < 2 ^ 64 ∧ (3 : Nat) < 64 ∧
    ((set_nth_bit 12 3).1 = Except.ok () ∧
      (clear_nth_bit 12 3).1 = Except.ok () ∧
      ((set_nth_bit 12 3).2).testBit 3 = true ∧
      ((clear_nth_bit 12 3).2).testBit 3 = false ∧
      (∀ m, m ≠ 3 → ((set_nth_bit 12 3).2).testBit m = Nat.testBit 12 m) ∧
      (∀ m, m ≠ 3 → ((clear_nth_bit 12 3).2).testBit m = Nat.testBit 12 m) ∧
      (set_nth_bit 12 3).2 < 2 ^ 64 ∧ (clear_nth_bit 12 3).2 < 2 ^ 64) :=
  ⟨by decide, by decide, set_clear_bit_effect 12 3 (by decide) (by decide)⟩

/-- C10: for every word w and index n ≥ 64, set_nth_bit and clear_nth_bit return
the out-of-bounds error and leave the word completely unchanged. -/
theorem set_clear_bit_error_atomic (w n : Nat) (h : 64 ≤ n) :
    set_nth_bit w n = (Except.error BitmapErr.OutOfBounds, w) ∧
    clear_nth_bit w n = (Except.error BitmapErr.OutOfBounds, w) := by
  unfold set_nth_bit clear_nth_bit
  rw [if_pos h, if_pos h]
  exact ⟨rfl, rfl⟩

/-- C10 witness at a concrete out-of-range index. -/
theorem set_clear_bit_error_atomic_witness :
    (64 : Nat) ≤ 64 ∧
    (set_nth_bit 12 64 = (Except.error BitmapErr.OutOfBounds, 12) ∧
      clear_nth_bit 12 64 = (Except.error BitmapErr.OutOfBounds, 12)) :=
  ⟨by decide, set_clear_bit_error_atomic 12 64 (by decide)⟩

/-! ### Buffer pool construction, embedded from src/buffer/mod.rs -/

/-- The database buffer, from src/buffer/mod.rs. A frame is a PageLatch, a latched
optional boxed page; the latch and the reference counting are concurrency wrappers
with no data content, so a frame is embedded as an optional page, with the page
type left as a parameter since Page is a trait in the source. The page table is a
map from page identifier to frame identifier, embedded as an association list. -/
structure Buffer (Page : Type) where
  pool : List (Option Page)
  page_table : List (Nat × Nat)

/-- Embeds Buffer::new from src/buffer/mod.rs: pushes an empty frame onto the pool
once per unit of the requested size, and starts from an empty page table. -/
def Buffer.new (Page : Type) (size : Nat) : Buffer Page :=
  { pool := List.replicate size none, page_table := [] }

/-- C6: constructing the buffer with frame count N yields a pool of exactly N
frames, each initially holding no page, and an empty page table. The pool is a
field fixed at construction; no operation in the provided sources modifies it. -/
theorem buffer_new_spec (Page : Type) (n : Nat) :
    (Buffer.new Page n).pool.length = n ∧
    (∀ f ∈ (Buffer.new Page n).pool, f = none) ∧
    (Buffer.new Page n).page_table = [] := by
  refine ⟨List.length_replicate n none, ?_, rfl⟩
  intro f hf
  exact List.eq_of_mem_replicate hf

/-! ### LRU eviction policy

The source file src/buffer/eviction_policies/lru.rs declares LRUPolicy and its
Policy trait methods, but every method body is an unimplemented stub, so the
behaviour is modelled from the spec. -/

/-- Modelled from the spec: the LRU eviction policy instance of
src/buffer/eviction_policies/lru.rs, whose method bodies are unimplemented stubs
in the source. It maintains an ordered sequence of candidate frame identifiers,
least-recently-used first. -/
structure LRUPolicy where
  candidates : List Nat
  deriving DecidableEq, Repr

/-- Modelled from the spec: a fresh policy has an empty candidate sequence. -/
def LRUPolicy.new : LRUPolicy := ⟨[]⟩

/-- Modelled from the spec: unpin inserts the frame identifier into the candidate
sequence at the most-recently-used end. -/
def LRUPolicy.unpin (p : LRUPolicy) (frame_id : Nat) : LRUPolicy :=
  ⟨p.candidates ++ [frame_id]⟩

/-- Modelled from the spec: pin removes the frame identifier from the candidate
sequence wherever it occurs, a no-op if it is not present. -/
def LRUPolicy.pin (p : LRUPolicy) (frame_id : Nat) : LRUPolicy :=
  ⟨p.candidates.filter (fun g => g != frame_id)⟩

/-- Modelled from the spec: evict fails when the candidate sequence is empty, and
otherwise removes and returns the least-recently-used candidate. The error type
is String, as in the Policy trait signature of the source. -/
def LRUPolicy.evict (p : LRUPolicy) : Except String (Nat × LRUPolicy) :=
  match p.candidates with
  | [] => Except.error "NoEvictableFrame"
  | f :: rest => Except.ok (f, ⟨rest⟩)

/-- C5: seeding the LRU policy by pinning frames a, b, c and then unpinning them
in that order, with no re-pin, makes the first three evictions return a, then b,
then c. -/
theorem lru_eviction_order (a b c : Nat) :
    ∃ s₁ s₂ s₃ : LRUPolicy,
      ((((((LRUPolicy.new.pin a).pin b).pin c).unpin a).unpin b).unpin c).evict
        = Except.ok (a, s₁) ∧
      s₁.evict = Except.ok (b, s₂) ∧
      s₂.evict = Except.ok (c, s₃) :=
  ⟨⟨[b, c]⟩, ⟨[c]⟩, ⟨[]⟩, rfl, rfl, rfl⟩

/-! ### Disk Manager

The disk manager implementation file is not among the provided sources; only
tests/test_disk.rs exercises it. Its state and operations are modelled from the
spec: a per-page allocation bitmap made of 64-bit words that grows by whole
words, a byte-addressable backing file, page identifier p occupying the byte
range from p * PAGE_SIZE inclusive to (p + 1) * PAGE_SIZE exclusive, the page
CATALOG_ROOT_ID pre-allocated at construction, and allocation scanning from the
first reserved slot upward for the lowest unallocated identifier. -/

/-- Modelled from the spec: the page size constant, default 4096 bytes. -/
def PAGE_SIZE : Nat := 4096

/-- Modelled from the spec: the reserved first page identifier, pre-allocated at
disk manager construction to anchor catalog metadata. -/
def CATALOG_ROOT_ID : Nat := 0

/-- Modelled from the spec: the fatal error for a read or write of an
unallocated page identifier. The source aborts; the embedding returns this
error and no data. -/
inductive DiskErr where
  | InvalidPageAccess
  deriving DecidableEq, Repr

/-- Modelled from the spec: the disk manager owns the allocation bitmap, a list
of 64-bit words with one bit per page identifier, and the backing file, a
byte-addressable store embedded as a map from byte address to byte value. -/
structure DiskManager where
  bitmap : List Nat
  file : Nat → Nat

/-- Modelled from the spec: is_allocated is true iff the bitmap bit for the page
identifier is set, always succeeds, and treats identifiers beyond current bitmap
capacity as unallocated. The bit is read with the bitmap utility of
src/bitmap.rs; a missing word reads as zero. -/
def DiskManager.is_allocated (dm : DiskManager) (page_id : Nat) : Bool :=
  match get_nth_bit (dm.bitmap.getD (page_id / 64) 0) (page_id % 64) with
  | Except.ok v => v == 1
  | Except.error _ => false

/-- Modelled from the spec: the bitmap grows by whole words as new identifiers
exceed current capacity; missing words start as zero. -/
def growWords (ws : List Nat) (w : Nat) : List Nat :=
  if w < ws.length then ws else ws ++ List.replicate (w + 1 - ws.length) 0

/-- Modelled from the spec: mark a page identifier allocated by setting its
bitmap bit with the bitmap utility of src/bitmap.rs, growing the bitmap by
whole words first when needed. -/
def DiskManager.markAllocated (dm : DiskManager) (page_id : Nat) : DiskManager :=
  { dm with
    bitmap := (growWords dm.bitmap (page_id / 64)).set (page_id / 64)
      ((set_nth_bit ((growWords dm.bitmap (page_id / 64)).getD (page_id / 64) 0)
        (page_id % 64)).2) }

/-- Modelled from the spec: scan upward from a starting identifier for the first
unallocated one. The scan is fuel-bounded so that it is structurally recursive;
callers pass enough fuel to pass the end of the bitmap, where every identifier
is unallocated. -/
def DiskManager.scanFree (dm : DiskManager) (start fuel : Nat) : Nat :=
  match fuel with
  | 0 => start
  | fuel + 1 => if dm.is_allocated start then dm.scanFree (start + 1) fuel else start

/-- Modelled from the spec: the identifier the next allocation returns, found by
scanning the bitmap from the first reserved slot upward, with enough fuel to
pass the end of the bitmap. -/
def DiskManager.alloc_target (dm : DiskManager) : Nat :=
  dm.scanFree CATALOG_ROOT_ID (64 * dm.bitmap.length + 1)

/-- Modelled from the spec: allocate_page finds the lowest-numbered currently
unallocated identifier, scanning the bitmap from the first reserved slot upward,
marks it allocated, and returns it. -/
def DiskManager.allocate_page (dm : DiskManager) : Nat × DiskManager :=
  (dm.alloc_target, dm.markAllocated dm.alloc_target)

/-- Modelled from the spec: a fresh disk manager starts from an empty bitmap and
a zeroed backing file, with CATALOG_ROOT_ID pre-marked allocated. -/
def DiskManager.new : DiskManager :=
  (DiskManager.mk [] (fun _ => 0)).markAllocated CATALOG_ROOT_ID

/-- Overwrite the byte range starting at the given offset with the given bytes,
leaving every other byte of the file unchanged. -/
def writeBytes (file : Nat → Nat) (off : Nat) (data : List Nat) : Nat → Nat :=
  fun a =>
    if off ≤ a ∧ a < off + data.length then data.getD (a - off) 0 else file a

/-- Modelled from the spec: write_page writes the data to the file at the byte
offset computed from the page identifier, and fails fatally when the identifier
is not allocated. -/
def DiskManager.write_page (dm : DiskManager) (page_id : Nat) (data : List Nat) :
    Except DiskErr DiskManager :=
  if dm.is_allocated page_id then
    Except.ok { dm with file := writeBytes dm.file (page_id * PAGE_SIZE) data }
  else Except.error DiskErr.InvalidPageAccess

/-- Modelled from the spec: read_page reads the PAGE_SIZE stored bytes at the
byte offset computed from the page identifier, and fails fatally, returning no
data, when the identifier is not allocated. -/
def DiskManager.read_page (dm : DiskManager) (page_id : Nat) :
    Except DiskErr (List Nat) :=
  if dm.is_allocated page_id then
    Except.ok ((List.range PAGE_SIZE).map (fun i => dm.file (page_id * PAGE_SIZE + i)))
  else Except.error DiskErr.InvalidPageAccess

/-- The disk manager state after n allocate_page calls on a fresh manager. -/
def allocState : Nat → DiskManager
  | 0 => DiskManager.new
  | n + 1 => ((allocState n).allocate_page).2

/-- The page identifiers returned by the first n allocate_page calls on a fresh
manager, in call order. -/
def allocIds (n : Nat) : List Nat :=
  (List.range n).map (fun k => ((allocState k).allocate_page).1)

/-- The allocation check reads exactly the bitmap bit of the page identifier. -/
theorem is_allocated_eq_testBit (dm : DiskManager) (p : Nat) :
    dm.is_allocated p = (dm.bitmap.getD (p / 64) 0).testBit (p % 64) := by
  unfold DiskManager.is_allocated get_nth_bit
  rw [if_neg (by omega)]
  rw [shiftRight_and_one_eq_testBit]
  generalize (dm.bitmap.getD (p / 64) 0).testBit (p % 64) = b
  cases b <;> rfl

/-- Growing the bitmap by zero words changes no word: absent words already read
as zero. -/
theorem getD_growWords (ws : List Nat) (w i : Nat) :
    (growWords ws w).getD i 0 = ws.getD i 0 := by
  unfold growWords
  split
  · rfl
  · rw [List.getD_eq_getElem?_getD, List.getD_eq_getElem?_getD,
      List.getElem?_append, List.getElem?_replicate]
    split
    · rfl
    · rename_i hlen
      rw [List.getElem?_eq_none (by omega)]
      split <;> rfl

/-- After growing the bitmap for word w, word w is within range. -/
theorem lt_length_growWords (ws : List Nat) (w : Nat) :
    w < (growWords ws w).length := by
  unfold growWords
  split
  · assumption
  · rw [List.length_append, List.length_replicate]
    omega

/-- Successful bit-set in a word, as a value: the word gains exactly the power
of two of the set index. -/
theorem set_nth_bit_val (w n : Nat) (h : n < 64) :
    (set_nth_bit w n).2 = w ||| 2 ^ n := by
  unfold set_nth_bit
  rw [if_neg (by omega), Nat.one_shiftLeft]

/-- Marking a page allocated sets exactly its own bit: afterwards a page reads
as allocated iff it was already allocated or it is the marked page. -/
theorem markAllocated_is_allocated (dm : DiskManager) (p q : Nat) :
    (dm.markAllocated p).is_allocated q = (dm.is_allocated q || decide (q = p)) := by
  rw [is_allocated_eq_testBit, is_allocated_eq_testBit]
  unfold DiskManager.markAllocated
  rw [set_nth_bit_val _ _ (by omega)]
  rw [List.getD_eq_getElem?_getD, List.getElem?_set]
  by_cases hw : p / 64 = q / 64
  · rw [if_pos hw, if_pos (hw ▸ lt_length_growWords dm.bitmap (p / 64))]
    simp only [Option.getD_some]
    rw [Nat.testBit_lor, Nat.testBit_two_pow, getD_growWords]
    by_cases hb : p % 64 = q % 64
    · have hq : q = p := by omega
      simp [hq]
    · have hq : ¬ (q = p) := by omega
      simp [hb, hq, hw]
  · rw [if_neg hw]
    rw [← List.getD_eq_getElem?_getD, getD_growWords]
    have hq : ¬ (q = p) := by
      intro h
      exact hw (by rw [h])
    simp [hq]

/-- A page identifier beyond the bitmap capacity reads as unallocated. -/
theorem is_allocated_beyond (dm : DiskManager) (p : Nat)
    (h : 64 * dm.bitmap.length ≤ p) : dm.is_allocated p = false := by
  rw [is_allocated_eq_testBit]
  rw [List.getD_eq_getElem?_getD, List.getElem?_eq_none (by omega)]
  exact Nat.zero_testBit _

/-- The fuel-bounded scan returns an identifier at or after the start, within
the fuel, such that every identifier before it from the start on is allocated,
and such that it is itself unallocated unless the fuel ran out. -/
theorem scanFree_spec (dm : DiskManager) (fuel start : Nat) :
    start ≤ dm.scanFree start fuel ∧
    dm.scanFree start fuel ≤ start + fuel ∧
    (∀ i, start ≤ i → i < dm.scanFree start fuel → dm.is_allocated i = true) ∧
    (dm.scanFree start fuel < start + fuel →
      dm.is_allocated (dm.scanFree start fuel) = false) := by
  induction fuel generalizing start with
  | zero =>
    have h0 : dm.scanFree start 0 = start := rfl
    rw [h0]
    refine ⟨Nat.le_refl _, by omega, ?_, ?_⟩
    · intro i h1 h2
      omega
    · intro h1
      omega
  | succ fuel ih =>
    unfold DiskManager.scanFree
    by_cases h : dm.is_allocated start
    · rw [if_pos h]
      obtain ⟨ih1, ih2, ih3, ih4⟩ := ih (start + 1)
      refine ⟨by omega, by omega, ?_, ?_⟩
      · intro i hi1 hi2
        by_cases hi : i = start
        · rw [hi]
          exact h
        · exact ih3 i (by omega) hi2
      · intro hlt
        exact ih4 (by omega)
    · rw [if_neg h]
      refine ⟨Nat.le_refl _, by omega, ?_, ?_⟩
      · intro i h1 h2
        omega
      · intro _
        exact Bool.eq_false_iff.mpr h

/-- Unfolding of the first reserved page identifier. -/
theorem catalog_root_id_eq : CATALOG_ROOT_ID = 0 := rfl

/-- The page identifier returned by allocate_page on any disk manager state is
unallocated, every smaller identifier is allocated, and the resulting state
reads any identifier as allocated iff it was allocated before or it is the
returned one. -/
theorem allocate_page_spec (dm : DiskManager) :
    dm.is_allocated (dm.allocate_page).1 = false ∧
    (∀ q, q < (dm.allocate_page).1 → dm.is_allocated q = true) ∧
    (∀ q, ((dm.allocate_page).2).is_allocated q
      = (dm.is_allocated q || decide (q = (dm.allocate_page).1))) := by
  obtain ⟨h1, h2, h3, h4⟩ :=
    scanFree_spec dm (64 * dm.bitmap.length + 1) CATALOG_ROOT_ID
  rw [catalog_root_id_eq] at h1 h2 h3 h4
  have hfst : (dm.allocate_page).1
      = dm.scanFree CATALOG_ROOT_ID (64 * dm.bitmap.length + 1) := rfl
  rw [catalog_root_id_eq] at hfst
  have hlt : dm.scanFree 0 (64 * dm.bitmap.length + 1)
      < 0 + (64 * dm.bitmap.length + 1) := by
    by_contra hge
    have heq : dm.scanFree 0 (64 * dm.bitmap.length + 1)
        = 64 * dm.bitmap.length + 1 := by omega
    have hall := h3 (64 * dm.bitmap.length) (by omega) (by omega)
    have hbey := is_allocated_beyond dm (64 * dm.bitmap.length) (Nat.le_refl _)
    rw [hall] at hbey
    exact Bool.noConfusion hbey
  refine ⟨?_, ?_, ?_⟩
  · rw [hfst]
    exact h4 hlt
  · intro q hq
    rw [hfst] at hq
    exact h3 q (Nat.zero_le q) hq
  · intro q
    exact markAllocated_is_allocated dm (dm.allocate_page).1 q

/-- Boolean form of extending an upper bound by its successor. -/
theorem decide_le_or_eq_succ (a b : Nat) :
    (decide (a ≤ b) || decide (a = b + 1)) = decide (a ≤ b + 1) := by
  by_cases h1 : a ≤ b <;> by_cases h2 : a = b + 1
  · omega
  · simp [h1, h2]
    omega
  · simp [h1, h2]
  · simp [h1, h2]
    omega

/-- After n allocations on a fresh disk manager, exactly the identifiers up to n
are allocated. -/
theorem allocState_is_allocated (n q : Nat) :
    (allocState n).is_allocated q = decide (q ≤ n) := by
  induction n generalizing q with
  | zero =>
    have h0 : allocState 0
        = (DiskManager.mk [] (fun _ => 0)).markAllocated CATALOG_ROOT_ID := rfl
    rw [h0, markAllocated_is_allocated]
    have hempty : (DiskManager.mk [] (fun _ => 0)).is_allocated q = false :=
      is_allocated_beyond _ _ (by simp)
    rw [hempty, catalog_root_id_eq, Bool.false_or, decide_eq_decide]
    omega
  | succ n ih =>
    obtain ⟨h1, h2, h3⟩ := allocate_page_spec (allocState n)
    have hid : ((allocState n).allocate_page).1 = n + 1 := by
      rw [ih] at h1
      have hgt : ¬ (((allocState n).allocate_page).1 ≤ n) := of_decide_eq_false h1
      by_contra hne
      have hlt : n + 1 < ((allocState n).allocate_page).1 := by omega
      have hmid := h2 (n + 1) hlt
      rw [ih] at hmid
      have : (n + 1 : Nat) ≤ n := of_decide_eq_true hmid
      omega
    have hstate : allocState (n + 1) = ((allocState n).allocate_page).2 := rfl
    rw [hstate, h3 q, hid, ih]
    exact decide_le_or_eq_succ q n

/-- The n-th allocation on a fresh disk manager returns identifier n + 1. -/
theorem allocState_alloc_id (n : Nat) :
    ((allocState n).allocate_page).1 = n + 1 := by
  obtain ⟨h1, h2, _⟩ := allocate_page_spec (allocState n)
  rw [allocState_is_allocated] at h1
  have hgt : ¬ (((allocState n).allocate_page).1 ≤ n) := of_decide_eq_false h1
  by_contra hne
  have hlt : n + 1 < ((allocState n).allocate_page).1 := by omega
  have hmid := h2 (n + 1) hlt
  rw [allocState_is_allocated] at hmid
  have : (n + 1 : Nat) ≤ n := of_decide_eq_true hmid
  omega

/-- C1: on a fresh disk manager, successive allocate_page calls return the
strictly increasing, gap-free identifier sequence starting at
CATALOG_ROOT_ID + 1; moreover, on any state, allocate_page returns the
lowest-numbered currently-unallocated identifier and marks it allocated. -/
theorem allocate_page_sequence :
    (∀ n, allocIds n = (List.range n).map (fun i => CATALOG_ROOT_ID + 1 + i)) ∧
    (∀ dm : DiskManager,
      dm.is_allocated (dm.allocate_page).1 = false ∧
      (∀ q, q < (dm.allocate_page).1 → dm.is_allocated q = true) ∧
      ((dm.allocate_page).2).is_allocated (dm.allocate_page).1 = true) := by
  constructor
  · intro n
    unfold allocIds
    apply List.map_congr_left
    intro k hk
    rw [allocState_alloc_id, catalog_root_id_eq]
    omega
  · intro dm
    obtain ⟨h1, h2, h3⟩ := allocate_page_spec dm
    refine ⟨h1, h2, ?_⟩
    rw [h3]
    simp

/-- C4: is_allocated is a total boolean observer: identifiers beyond the bitmap
capacity read as unallocated; after n allocations on a fresh manager exactly
the identifiers up to CATALOG_ROOT_ID + n are allocated, so an untouched
identifier reads false and CATALOG_ROOT_ID reads true at construction; and the
identifier just returned by allocate_page reads true. -/
theorem is_allocated_spec :
    (∀ (dm : DiskManager) (p : Nat), 64 * dm.bitmap.length ≤ p →
      dm.is_allocated p = false) ∧
    (∀ n q, (allocState n).is_allocated q = decide (q ≤ CATALOG_ROOT_ID + n)) ∧
    DiskManager.new.is_allocated CATALOG_ROOT_ID = true ∧
    (∀ dm : DiskManager,
      ((dm.allocate_page).2).is_allocated (dm.allocate_page).1 = true) := by
  refine ⟨is_allocated_beyond, ?_, rfl, ?_⟩
  · intro n q
    rw [allocState_is_allocated, catalog_root_id_eq, decide_eq_decide]
    omega
  · intro dm
    obtain ⟨_, _, h3⟩ := allocate_page_spec dm
    rw [h3]
    simp

/-- C4 witness: the fresh manager has a one-word bitmap, so identifier 64 is
beyond capacity and reads unallocated. -/
theorem is_allocated_spec_witness :
    64 * DiskManager.new.bitmap.length ≤ 64 ∧
    DiskManager.new.is_allocated 64 = false :=
  ⟨by decide, is_allocated_spec.1 DiskManager.new 64 (by decide)⟩

/-- Reading a list back positionwise reproduces the list. -/
theorem getD_range_map (l : List Nat) :
    (List.range l.length).map (fun i => l.getD i 0) = l := by
  apply List.ext_getElem
  · simp
  · intro i h1 h2
    simp only [List.getElem_map, List.getElem_range]
    rw [List.getD_eq_getElem?_getD, List.getElem?_eq_getElem h2]
    rfl

/-- C2: for every state, every allocated page identifier p and every buffer b of
exactly PAGE_SIZE bytes, write_page p b succeeds and read_page p on the
resulting state returns exactly b. -/
theorem write_read_roundtrip (dm : DiskManager) (p : Nat) (b : List Nat)
    (hp : dm.is_allocated p = true) (hb : b.length = PAGE_SIZE) :
    ∃ dm', dm.write_page p b = Except.ok dm' ∧ dm'.read_page p = Except.ok b := by
  refine ⟨{ dm with file := writeBytes dm.file (p * PAGE_SIZE) b }, ?_, ?_⟩
  · unfold DiskManager.write_page
    rw [if_pos hp]
  · have hp' : ({ dm with file := writeBytes dm.file (p * PAGE_SIZE) b }
        : DiskManager).is_allocated p = true := hp
    unfold DiskManager.read_page
    rw [if_pos hp']
    have hmap : (List.range PAGE_SIZE).map
        (fun i => writeBytes dm.file (p * PAGE_SIZE) b (p * PAGE_SIZE + i)) = b := by
      rw [← hb]
      apply List.ext_getElem
      · simp
      · intro i h1 h2
        simp only [List.getElem_map, List.getElem_range]
        unfold writeBytes
        rw [if_pos ⟨by omega, by omega⟩]
        have hidx : p * b.length + i - p * b.length = i := by omega
        rw [hidx, List.getD_eq_getElem?_getD, List.getElem?_eq_getElem h2]
        rfl
    show Except.ok ((List.range PAGE_SIZE).map
        (fun i => writeBytes dm.file (p * PAGE_SIZE) b (p * PAGE_SIZE + i)))
      = Except.ok b
    rw [hmap]

/-- C2 witness: on the fresh manager after one allocation, writing a full page
of byte 123 to the returned identifier and reading it back yields it exactly. -/
theorem write_read_roundtrip_witness :
    (allocState 1).is_allocated 1 = true ∧
    (List.replicate PAGE_SIZE 123).length = PAGE_SIZE ∧
    ∃ dm', (allocState 1).write_page 1 (List.replicate PAGE_SIZE 123)
        = Except.ok dm' ∧
      dm'.read_page 1 = Except.ok (List.replicate PAGE_SIZE 123) :=
  ⟨by decide, by simp,
    write_read_roundtrip (allocState 1) 1 (List.replicate PAGE_SIZE 123)
      (by decide) (by simp)⟩

/-- C3: for every state and every unallocated page identifier, read_page and
write_page both fail with the fatal invalid-access error; in particular
read_page returns no data. -/
theorem unallocated_access_fails (dm : DiskManager) (p : Nat) (b : List Nat)
    (h : dm.is_allocated p = false) :
    dm.read_page p = Except.error DiskErr.InvalidPageAccess ∧
    dm.write_page p b = Except.error DiskErr.InvalidPageAccess := by
  unfold DiskManager.read_page DiskManager.write_page
  rw [h]
  simp

/-- C3 witness: identifier 2 is unallocated on a fresh manager, as in the
test_unallocated_read test, and both accesses fail fatally. -/
theorem unallocated_access_fails_witness :
    DiskManager.new.is_allocated 2 = false ∧
    DiskManager.new.read_page 2 = Except.error DiskErr.InvalidPageAccess ∧
    DiskManager.new.write_page 2 (List.replicate PAGE_SIZE 0)
      = Except.error DiskErr.InvalidPageAccess :=
  ⟨by decide, (unallocated_access_fails DiskManager.new 2
      (List.replicate PAGE_SIZE 0) (by decide)).1,
    (unallocated_access_fails DiskManager.new 2
      (List.replicate PAGE_SIZE 0) (by decide)).2⟩

end MinuSQL
